import Mathlib

/-!
# Verification of the course-recommender core (`src/app.py`)

This file embeds the two non-UI operations of the repository —
`compute_similarity` (the spec's `build_similarity`) and `recommend` — and
settles the frozen claims about them.

Modelling decisions:

* A pandas `DataFrame` of courses becomes a `Catalog`: a list of `Course`
  records together with two flags recording whether the optional
  `description` / `provider` columns exist in the frame (column existence is
  a property of the whole frame, which is what `'description' in df.columns`
  and `row.get("description", default)` test).
* Python floats are idealised as exact real numbers `ℝ`; the `recommend`
  pipeline is kept polymorphic over a linearly ordered score type so that
  concrete counterexamples can be evaluated over `ℚ` while the TF-IDF model
  lives over `ℝ`.
* `numpy.argsort` (default kind) is modelled as the stable ascending argsort:
  indices sorted lexicographically by (score, index).  numpy leaves tie order
  unspecified for its default introsort, but on small arrays it runs plain
  insertion sort, which is exactly this stable order.
* Python slicing `[::-1][1:k+1]` becomes `reverse`, `drop 1`, `take k`.
* The `try/except` of `recommend` is modelled with `Except`: `recommendBody`
  is the body of the `try` block (the only statement in it that can raise on
  a well-formed catalog is the row access `similarity[idx]`, which raises
  `IndexError` when `idx` is out of range), and `recommend` catches any
  error and returns `[]`, as the `except` clause does.
* The f-string formatting of the score (`f"{scores[i]:.2f}"`, display only)
  is not modelled; the result record carries the raw score.
-/

namespace CourseRec

/-- One row of the course DataFrame (`create_sample_data` fields). -/
structure Course where
  name : String
  url : String
  poster : String
  description : String
  provider : String
deriving Repr, DecidableEq, Inhabited

/-- The course DataFrame: its rows plus which optional columns exist. -/
structure Catalog where
  items : List Course
  hasDescription : Bool
  hasProvider : Bool
deriving Repr, DecidableEq, Inhabited

/-- A recommendation record as built in the loop of `recommend`
(`similarity_score` carries the raw score; the source formats it for
display only). -/
structure RecOut (α : Type) where
  name : String
  url : String
  poster : String
  description : String
  provider : String
  similarity_score : α
deriving Repr, DecidableEq

/-- `df['name'].values` — the name column. -/
def catalogNames (df : Catalog) : List String :=
  df.items.map (fun c => c.name)

/-- `df[df['name'] == course_name].index[0]` — index of the first item whose
name equals the query (the DataFrame has the default `RangeIndex`, so row
labels coincide with positions). -/
def resolveIdx (df : Catalog) (course_name : String) : ℕ :=
  df.items.findIdx (fun c => c.name == course_name)

/-- The comparison underlying the stable ascending argsort of a score row:
index `i` precedes index `j` when its score is smaller, or the scores are
equal and `i ≤ j`. -/
def idxLe {α : Type} [LinearOrder α] [Zero α] (s : List α) (i j : ℕ) : Prop :=
  s.getD i 0 < s.getD j 0 ∨ (s.getD i 0 = s.getD j 0 ∧ i ≤ j)

instance idxLe.instDecidableRel {α : Type} [LinearOrder α] [Zero α] (s : List α) :
    DecidableRel (idxLe s) := by
  intro i j
  unfold idxLe
  infer_instance

instance idxLe.instIsTotal {α : Type} [LinearOrder α] [Zero α] (s : List α) :
    IsTotal ℕ (idxLe s) := by
  constructor
  intro i j
  rcases lt_trichotomy (s.getD i 0) (s.getD j 0) with h | h | h
  · exact Or.inl (Or.inl h)
  · rcases le_total i j with hij | hij
    · exact Or.inl (Or.inr ⟨h, hij⟩)
    · exact Or.inr (Or.inr ⟨h.symm, hij⟩)
  · exact Or.inr (Or.inl h)

instance idxLe.instIsTrans {α : Type} [LinearOrder α] [Zero α] (s : List α) :
    IsTrans ℕ (idxLe s) := by
  constructor
  intro i j k hij hjk
  rcases hij with h1 | ⟨h1, hij⟩
  · rcases hjk with h2 | ⟨h2, _⟩
    · exact Or.inl (h1.trans h2)
    · exact Or.inl (h2 ▸ h1)
  · rcases hjk with h2 | ⟨h2, hjk⟩
    · exact Or.inl (h1 ▸ h2)
    · exact Or.inr ⟨h1.trans h2, hij.trans hjk⟩

/-- `scores.argsort()` — the stable ascending argsort of a score row. -/
def argsort {α : Type} [LinearOrder α] [Zero α] (s : List α) : List ℕ :=
  List.insertionSort (idxLe s) (List.range s.length)

/-- `scores.argsort()[::-1][1:n_recommendations + 1]`. -/
def similarIndices {α : Type} [LinearOrder α] [Zero α] (s : List α)
    (n_recommendations : ℕ) : List ℕ :=
  (((argsort s).reverse).drop 1).take n_recommendations

/-- The record built for catalog index `i` in the loop of `recommend`
(`df.iloc[i].get` falls back to the defaults when the column is absent). -/
def mkRecord {α : Type} [Zero α] (df : Catalog) (scores : List α) (i : ℕ) :
    RecOut α :=
  let c := df.items.getD i default
  { name := c.name
    url := c.url
    poster := c.poster
    description := if df.hasDescription then c.description else "Explore this course!"
    provider := if df.hasProvider then c.provider else "Coursera"
    similarity_score := scores.getD i 0 }

/-- The body of the `try` block of `recommend`.  The unknown-name guard
returns `ok []`; the row access `similarity[idx]` raises `IndexError` when
`idx` is out of range; the loop keeps only candidates with `i < len(df)`. -/
def recommendBody {α : Type} [LinearOrder α] [Zero α] (course_name : String)
    (df : Catalog) (similarity : List (List α)) (n_recommendations : ℕ) :
    Except String (List (RecOut α)) :=
  if course_name ∈ catalogNames df then
    match similarity.get? (resolveIdx df course_name) with
    | some scores =>
        Except.ok ((similarIndices scores n_recommendations).filterMap
          (fun i => if i < df.items.length then some (mkRecord df scores i) else none))
    | none => Except.error "IndexError"
  else
    Except.ok []

/-- `recommend(course_name, df, similarity, n_recommendations)`: the body
wrapped in `try/except` — any raised exception yields `[]`. -/
def recommend {α : Type} [LinearOrder α] [Zero α] (course_name : String)
    (df : Catalog) (similarity : List (List α)) (n_recommendations : ℕ) :
    List (RecOut α) :=
  match recommendBody course_name df similarity n_recommendations with
  | Except.ok results => results
  | Except.error _ => []

/-- The catalog indices of the records `recommend` returns, in order. -/
def recommendIndices {α : Type} [LinearOrder α] [Zero α] (course_name : String)
    (df : Catalog) (similarity : List (List α)) (n_recommendations : ℕ) :
    List ℕ :=
  if course_name ∈ catalogNames df then
    match similarity.get? (resolveIdx df course_name) with
    | some scores =>
        (similarIndices scores n_recommendations).filter
          (fun i => i < df.items.length)
    | none => []
  else
    []

/-! ## The vectorizer (`compute_similarity`)

`TfidfVectorizer(stop_words='english', max_features=5000)` with scikit-learn
defaults: lowercase, tokens are maximal runs of at least two word characters
(`token_pattern` matches word sequences of length two or more), English stop
words removed after tokenization, raw term counts, smoothed idf
`log((1 + n) / (1 + df)) + 1`, and l2 normalisation of each row.  Floats are
idealised as `ℝ`. -/

/-- A word character of the default token pattern (alphanumeric or
underscore; the claims only exercise ASCII text). -/
def isWordChar (c : Char) : Bool :=
  c.isAlphanum || c == '_'

/-- Emit the token collected in `cur` (reversed) when it has at least two
characters, as the default token pattern requires. -/
def flushToken (cur : List Char) : List String :=
  if 2 ≤ cur.length then [String.mk cur.reverse] else []

/-- Scan the character list, collecting maximal runs of word characters. -/
def tokenizeAux : List Char → List Char → List String
  | [], cur => flushToken cur
  | c :: rest, cur =>
    if isWordChar c then tokenizeAux rest (c :: cur)
    else flushToken cur ++ tokenizeAux rest []

/-- The vectorizer's analyzer, before stop-word removal: lowercase, then
extract tokens of two or more word characters. -/
def tokenize (s : String) : List String :=
  tokenizeAux (s.toList.map Char.toLower) []

/-- scikit-learn's built-in English stop-word list (`stop_words='english'`);
the claims only exercise membership of everyday words. -/
def englishStopWords : List String :=
  ["a", "about", "above", "across", "after", "afterwards", "again", "against",
   "all", "almost", "alone", "along", "already", "also", "although", "always",
   "am", "among", "amongst", "amoungst", "amount", "an", "and", "another",
   "any", "anyhow", "anyone", "anything", "anyway", "anywhere", "are",
   "around", "as", "at", "back", "be", "became", "because", "become",
   "becomes", "becoming", "been", "before", "beforehand", "behind", "being",
   "below", "beside", "besides", "between", "beyond", "bill", "both",
   "bottom", "but", "by", "call", "can", "cannot", "cant", "co", "con",
   "could", "couldnt", "cry", "de", "describe", "detail", "do", "done",
   "down", "due", "during", "each", "eg", "eight", "either", "eleven",
   "else", "elsewhere", "empty", "enough", "etc", "even", "ever", "every",
   "everyone", "everything", "everywhere", "except", "few", "fifteen",
   "fifty", "fill", "find", "fire", "first", "five", "for", "former",
   "formerly", "forty", "found", "four", "from", "front", "full", "further",
   "get", "give", "go", "had", "has", "hasnt", "have", "he", "hence", "her",
   "here", "hereafter", "hereby", "herein", "hereupon", "hers", "herself",
   "him", "himself", "his", "how", "however", "hundred", "i", "ie", "if",
   "in", "inc", "indeed", "interest", "into", "is", "it", "its", "itself",
   "keep", "last", "latter", "latterly", "least", "less", "ltd", "made",
   "many", "may", "me", "meanwhile", "might", "mill", "mine", "more",
   "moreover", "most", "mostly", "move", "much", "must", "my", "myself",
   "name", "namely", "neither", "never", "nevertheless", "next", "nine",
   "no", "nobody", "none", "noone", "nor", "not", "nothing", "now",
   "nowhere", "of", "off", "often", "on", "once", "one", "only", "onto",
   "or", "other", "others", "otherwise", "our", "ours", "ourselves", "out",
   "over", "own", "part", "per", "perhaps", "please", "put", "rather", "re",
   "same", "see", "seem", "seemed", "seeming", "seems", "serious", "several",
   "she", "should", "show", "side", "since", "sincere", "six", "sixty", "so",
   "some", "somehow", "someone", "something", "sometime", "sometimes",
   "somewhere", "still", "such", "system", "take", "ten", "than", "that",
   "the", "their", "them", "themselves", "then", "thence", "there",
   "thereafter", "thereby", "therefore", "therein", "thereupon", "these",
   "they", "thick", "thin", "third", "this", "those", "though", "three",
   "through", "throughout", "thru", "thus", "to", "together", "too", "top",
   "toward", "towards", "twelve", "twenty", "two", "un", "under", "until",
   "up", "upon", "us", "very", "via", "was", "we", "well", "were", "what",
   "whatever", "when", "whence", "whenever", "where", "whereafter",
   "whereas", "whereby", "wherein", "whereupon", "wherever", "whether",
   "which", "while", "whither", "who", "whoever", "whole", "whom", "whose",
   "why", "will", "with", "within", "without", "would", "yet", "you",
   "your", "yours", "yourself", "yourselves"]

/-- The full analyzer: tokenize, then drop stop words. -/
def preprocess (s : String) : List String :=
  (tokenize s).filter (fun t => t ∉ englishStopWords)

/-- The text feature of one item, as `compute_similarity` builds it:
`df['name'] + " " + df['description']` when the `description` column
exists, `df['name']` otherwise. -/
def featuresOf (df : Catalog) (c : Course) : String :=
  if df.hasDescription then c.name ++ " " ++ c.description else c.name

/-- The `features` column: one combined text per item, in catalog order. -/
def corpusFeatures (df : Catalog) : List String :=
  df.items.map (fun c => featuresOf df c)

/-- The analyzed corpus: the token list of each item's combined text. -/
def analyzedDocs (df : Catalog) : List (List String) :=
  (corpusFeatures df).map preprocess

/-- Number of documents containing term `t`. -/
def docFreq (t : String) (docs : List (List String)) : ℕ :=
  (docs.filter (fun d => t ∈ d)).length

/-- Total number of occurrences of term `t` in the corpus (the quantity
`max_features` selects by). -/
def corpusFreq (t : String) (docs : List (List String)) : ℕ :=
  (docs.map (fun d => d.count t)).sum

/-- The fitted vocabulary: all distinct terms in alphabetical order, capped
to the `max_features` most frequent ones (stable, so ties keep alphabetical
order) when there are more. -/
def buildVocab (docs : List (List String)) (max_features : ℕ) : List String :=
  let terms := List.insertionSort (fun s t => s ≤ t) (docs.flatten).dedup
  if terms.length ≤ max_features then terms
  else
    let kept :=
      (List.insertionSort (fun s t => corpusFreq t docs ≤ corpusFreq s docs) terms).take
        max_features
    terms.filter (fun t => t ∈ kept)

/-- Smoothed inverse document frequency: `ln((1 + n) / (1 + df(t))) + 1`. -/
noncomputable def idf (docs : List (List String)) (t : String) : ℝ :=
  Real.log ((1 + (docs.length : ℝ)) / (1 + (docFreq t docs : ℝ))) + 1

/-- The unnormalised tf-idf row of one document over the vocabulary. -/
noncomputable def tfidfRaw (docs : List (List String)) (d : List String) : List ℝ :=
  (buildVocab docs 5000).map (fun t => (d.count t : ℝ) * idf docs t)

/-- Dot product of two rows (`zipWith` truncates at the shorter row, and all
rows here share the vocabulary length). -/
noncomputable def dot (u v : List ℝ) : ℝ :=
  (List.zipWith (fun a b => a * b) u v).sum

/-- Euclidean norm of a row. -/
noncomputable def norm2 (u : List ℝ) : ℝ :=
  Real.sqrt (dot u u)

/-- l2 normalisation as scikit-learn performs it: zero rows are left as they
are (their norm is replaced by one before dividing). -/
noncomputable def l2normalize (u : List ℝ) : List ℝ :=
  if norm2 u = 0 then u else u.map (fun a => a / norm2 u)

/-- `tfidf_matrix = tfidf.fit_transform(features)`: the l2-normalised tf-idf
row of each item. -/
noncomputable def tfidfRows (df : Catalog) : List (List ℝ) :=
  (analyzedDocs df).map (fun d => l2normalize (tfidfRaw (analyzedDocs df) d))

/-- Cosine similarity of two rows, with scikit-learn's zero-safe
normalisation: when either row is zero the dot product is `0`, and with
Lean's `x / 0 = 0` convention the quotient is `0`, exactly the library's
result. -/
noncomputable def cosineSim (u v : List ℝ) : ℝ :=
  dot u v / (norm2 u * norm2 v)

/-- The success branch of `compute_similarity(df)`: the dense pairwise
cosine-similarity matrix of the tf-idf rows (the spec's `build_similarity`).
This branch is only reached when `fit_transform` succeeds — see
`compute_similarityE` for the raising behaviour on an empty vocabulary. -/
noncomputable def compute_similarity (df : Catalog) : List (List ℝ) :=
  (tfidfRows df).map (fun u => (tfidfRows df).map (fun v => cosineSim u v))

/-- `compute_similarity(df)` as the program behaves end to end:
`tfidf.fit_transform` raises `ValueError` when the fitted vocabulary is
empty (no document yields any token after tokenization and stop-word
removal), and `compute_similarity` has no handler, so the call crashes
instead of returning a matrix; otherwise it returns the matrix of the
success branch. -/
noncomputable def compute_similarityE (df : Catalog) :
    Except String (List (List ℝ)) :=
  if buildVocab (analyzedDocs df) 5000 = [] then
    Except.error "ValueError: empty vocabulary"
  else
    Except.ok (compute_similarity df)

/-- Entry `(i, j)` of a matrix stored as a list of rows. -/
def entry {α : Type} [Zero α] (S : List (List α)) (i j : ℕ) : α :=
  (S.getD i []).getD j 0

/-- The spec's own wording of the text feature (for the refinement claim):
name and description joined by a whitespace separator when a description
field exists, and the name alone otherwise. -/
def specTextFeature (df : Catalog) (c : Course) : String :=
  if df.hasDescription then String.intercalate " " [c.name, c.description]
  else c.name

/-! ## Concrete data for witnesses and counterexamples -/

def courseA : Course := ⟨"A", "uA", "pA", "dA", "vA"⟩

def courseB : Course := ⟨"B", "uB", "pB", "dB", "vB"⟩

def courseC : Course := ⟨"C", "uC", "pC", "dC", "vC"⟩

/-- A two-item catalog. -/
def catalog2 : Catalog := ⟨[courseA, courseB], true, true⟩

/-- A three-item catalog. -/
def catalog3 : Catalog := ⟨[courseA, courseB, courseC], true, true⟩

/-- A catalog in which two distinct items share the name `A`. -/
def dupCatalog : Catalog :=
  ⟨[courseA, ⟨"A", "uA2", "pA2", "dA2", "vA2"⟩, courseB], true, true⟩

/-- The degenerate catalog for the self-recommendation bug: the first item's
combined text consists of the stop word `the` alone, so its tf-idf vector is
zero and its similarity row is identically zero. -/
def degenerateCatalog : Catalog :=
  ⟨[⟨"the", "u0", "p0", "", "v0"⟩, ⟨"xyz", "u1", "p1", "", "v1"⟩], true, true⟩

/-- A two-item catalog on which vectorization raises: there is no
description column and the names are single characters, so the token
pattern (two or more word characters) yields no token for any document and
the fitted vocabulary is empty. -/
def emptyVocabCatalog : Catalog :=
  ⟨[⟨"A", "u0", "p0", "", "v0"⟩, ⟨"B", "u1", "p1", "", "v1"⟩], false, true⟩

/-! ## Lemmas about the recommender pipeline -/

lemma argsort_perm {α : Type} [LinearOrder α] [Zero α] (s : List α) :
    List.Perm (argsort s) (List.range s.length) :=
  List.perm_insertionSort _ _

lemma argsort_sorted {α : Type} [LinearOrder α] [Zero α] (s : List α) :
    List.Sorted (idxLe s) (argsort s) :=
  List.sorted_insertionSort _ _

lemma argsort_nodup {α : Type} [LinearOrder α] [Zero α] (s : List α) :
    (argsort s).Nodup :=
  ((argsort_perm s).nodup_iff).2 (List.nodup_range _)

lemma argsort_length {α : Type} [LinearOrder α] [Zero α] (s : List α) :
    (argsort s).length = s.length := by
  simpa using (argsort_perm s).length_eq

lemma mem_argsort_lt {α : Type} [LinearOrder α] [Zero α] {s : List α} {i : ℕ}
    (h : i ∈ argsort s) : i < s.length := by
  simpa [List.mem_range] using (argsort_perm s).mem_iff.1 h

lemma similarIndices_sublist {α : Type} [LinearOrder α] [Zero α] (s : List α)
    (k : ℕ) : List.Sublist (similarIndices s k) ((argsort s).reverse) :=
  (List.take_sublist _ _).trans (List.drop_sublist _ _)

lemma similarIndices_nodup {α : Type} [LinearOrder α] [Zero α] (s : List α)
    (k : ℕ) : (similarIndices s k).Nodup :=
  List.Nodup.sublist (similarIndices_sublist s k)
    (List.nodup_reverse.2 (argsort_nodup s))

lemma mem_similarIndices_lt {α : Type} [LinearOrder α] [Zero α] {s : List α}
    {k i : ℕ} (h : i ∈ similarIndices s k) : i < s.length :=
  mem_argsort_lt (List.mem_reverse.1 ((similarIndices_sublist s k).subset h))

lemma similarIndices_pairwise {α : Type} [LinearOrder α] [Zero α] (s : List α)
    (k : ℕ) : (similarIndices s k).Pairwise (fun i j => idxLe s j i) := by
  refine List.Pairwise.sublist (similarIndices_sublist s k) ?_
  rw [List.pairwise_reverse]
  exact argsort_sorted s

/-- The selected indices are pairwise strictly ordered: later candidates have
strictly smaller scores or, on a tie, a strictly smaller original index. -/
lemma similarIndices_pairwise_strict {α : Type} [LinearOrder α] [Zero α]
    (s : List α) (k : ℕ) :
    (similarIndices s k).Pairwise
      (fun i j => s.getD j 0 < s.getD i 0 ∨ (s.getD j 0 = s.getD i 0 ∧ j < i)) := by
  have h := (similarIndices_pairwise s k).and (similarIndices_nodup s k)
  refine h.imp ?_
  rintro i j ⟨hij | ⟨heq, hle⟩, hne⟩
  · exact Or.inl hij
  · exact Or.inr ⟨heq, lt_of_le_of_ne hle (Ne.symm hne)⟩

lemma filterMap_ite_eq_map_filter {β : Type} (f : ℕ → β) (p : ℕ → Prop)
    [DecidablePred p] :
    ∀ l : List ℕ,
      (l.filterMap fun i => if p i then some (f i) else none) =
        (l.filter fun i => p i).map f := by
  intro l
  induction l with
  | nil => simp
  | cons a l ih => by_cases h : p a <;> simp [h, ih]

/-- `recommend` is `mkRecord` mapped over the selected in-range indices of
the row it reads (and `[]` through the handler when that row is absent). -/
lemma recommend_eq_map {α : Type} [LinearOrder α] [Zero α] (course_name : String)
    (df : Catalog) (m : List (List α)) (k : ℕ) :
    recommend course_name df m k =
      (recommendIndices course_name df m k).map
        (mkRecord df (m.getD (resolveIdx df course_name) [])) := by
  unfold recommend recommendBody recommendIndices
  by_cases hmem : course_name ∈ catalogNames df
  · simp only [if_pos hmem]
    cases hm : m.get? (resolveIdx df course_name) with
    | some scores =>
      have hg : m.getD (resolveIdx df course_name) [] = scores := by
        simp [List.getD_eq_getElem?_getD, ← List.get?_eq_getElem?, hm]
      rw [hg]
      dsimp only
      rw [filterMap_ite_eq_map_filter]
    | none => simp
  · simp only [if_neg hmem, List.map_nil]

lemma resolveIdx_lt (df : Catalog) {name : String}
    (h : name ∈ catalogNames df) : resolveIdx df name < df.items.length := by
  apply List.findIdx_lt_length_of_exists
  rcases List.mem_map.1 h with ⟨c, hc, rfl⟩
  exact ⟨c, hc, by simp⟩

lemma resolveIdx_name (df : Catalog) {name : String}
    (h : name ∈ catalogNames df) :
    (df.items.getD (resolveIdx df name) default).name = name := by
  have hlt := resolveIdx_lt df h
  have hlt' : df.items.findIdx (fun c => c.name == name) < df.items.length := hlt
  have hp := @List.findIdx_getElem Course (fun c => c.name == name)
    df.items hlt'
  rw [List.getD_eq_getElem _ _ hlt]
  simpa using hp

lemma resolveIdx_least (df : Catalog) (name : String) {j : ℕ}
    (hj : j < resolveIdx df name) :
    (df.items.getD j default).name ≠ name := by
  have hjl : j < df.items.length :=
    lt_of_lt_of_le hj (List.findIdx_le_length _)
  have hj' : j < df.items.findIdx (fun c => c.name == name) := hj
  have hp := @List.not_of_lt_findIdx Course (fun c => c.name == name)
    df.items j hj'
  rw [List.getD_eq_getElem _ _ hjl]
  simpa using hp

lemma recommendIndices_length {α : Type} [LinearOrder α] [Zero α]
    (name : String) (df : Catalog) (m : List (List α)) (k : ℕ)
    (hfound : name ∈ catalogNames df)
    (hm : m.length = df.items.length)
    (hrows : ∀ row ∈ m, row.length = df.items.length) :
    (recommendIndices name df m k).length = min k (df.items.length - 1) := by
  have hidx : resolveIdx df name < m.length := by
    rw [hm]
    exact resolveIdx_lt df hfound
  obtain ⟨scores, hs⟩ : ∃ s, m.get? (resolveIdx df name) = some s := by
    rw [List.get?_eq_getElem?]
    exact ⟨_, List.getElem?_eq_getElem hidx⟩
  have hmem : scores ∈ m := by
    have := List.get?_mem hs
    exact this
  have hslen : scores.length = df.items.length := hrows _ hmem
  unfold recommendIndices
  rw [if_pos hfound, hs]
  dsimp only
  have hfil : (similarIndices scores k).filter
      (fun i => decide (i < df.items.length)) = similarIndices scores k := by
    apply List.filter_eq_self.2
    intro i hi
    have := mem_similarIndices_lt hi
    simpa using lt_of_lt_of_le this (le_of_eq hslen)
  rw [hfil]
  simp [similarIndices, List.length_take, List.length_drop, argsort_length, hslen]

/-! ## Lemmas about the similarity computation -/

lemma dot_cons (a : ℝ) (u : List ℝ) (b : ℝ) (v : List ℝ) :
    dot (a :: u) (b :: v) = a * b + dot u v := by
  simp [dot]

lemma dot_comm (u v : List ℝ) : dot u v = dot v u := by
  induction u generalizing v with
  | nil => cases v <;> simp [dot]
  | cons a u ih =>
    cases v with
    | nil => simp [dot]
    | cons b v => rw [dot_cons, dot_cons, ih, mul_comm]

lemma dot_self_nonneg (u : List ℝ) : 0 ≤ dot u u := by
  induction u with
  | nil => simp [dot]
  | cons a u ih =>
    rw [dot_cons]
    exact add_nonneg (mul_self_nonneg a) ih

lemma dot_nonneg (u : List ℝ) :
    ∀ v : List ℝ, (∀ x ∈ u, 0 ≤ x) → (∀ x ∈ v, 0 ≤ x) → 0 ≤ dot u v := by
  induction u with
  | nil =>
    intro v _ _
    simp [dot]
  | cons a u ih =>
    intro v hu hv
    cases v with
    | nil => simp [dot]
    | cons b v =>
      rw [dot_cons]
      refine add_nonneg
        (mul_nonneg (hu a (List.mem_cons_self a u)) (hv b (List.mem_cons_self b v)))
        (ih v (fun x hx => hu x (List.mem_cons_of_mem a hx))
          (fun x hx => hv x (List.mem_cons_of_mem b hx)))

lemma dot_zero_left (u v : List ℝ) (hu : ∀ x ∈ u, x = 0) : dot u v = 0 := by
  induction u generalizing v with
  | nil => simp [dot]
  | cons a u ih =>
    cases v with
    | nil => simp [dot]
    | cons b v =>
      rw [dot_cons, hu a (List.mem_cons_self a u),
        ih v (fun x hx => hu x (List.mem_cons_of_mem a hx))]
      ring

lemma dot_self_pos (u : List ℝ) (hu : ∃ x ∈ u, x ≠ 0) : 0 < dot u u := by
  induction u with
  | nil => simp at hu
  | cons a u ih =>
    rw [dot_cons]
    rcases hu with ⟨x, hx, hxne⟩
    rcases List.mem_cons.1 hx with rfl | hxu
    · have : 0 < x * x := mul_self_pos.2 hxne
      linarith [dot_self_nonneg u]
    · have : 0 < dot u u := ih ⟨x, hxu, hxne⟩
      linarith [mul_self_nonneg a]

lemma dot_eq_sum (u v : List ℝ) :
    dot u v =
      ∑ i ∈ Finset.range (min u.length v.length), u.getD i 0 * v.getD i 0 := by
  induction u generalizing v with
  | nil => simp [dot]
  | cons a u ih =>
    cases v with
    | nil => simp [dot]
    | cons b v =>
      rw [dot_cons, ih, List.length_cons, List.length_cons, Nat.succ_min_succ,
        Finset.sum_range_succ']
      simp [add_comm]

lemma dot_sq_le (u v : List ℝ) : dot u v ^ 2 ≤ dot u u * dot v v := by
  rw [dot_eq_sum u v, dot_eq_sum u u, dot_eq_sum v v, min_self, min_self]
  have h1 := Finset.sum_mul_sq_le_sq_mul_sq (Finset.range (min u.length v.length))
    (fun i => u.getD i 0) (fun i => v.getD i 0)
  refine h1.trans ?_
  have h2 : ∑ i ∈ Finset.range (min u.length v.length), u.getD i 0 ^ 2 ≤
      ∑ i ∈ Finset.range u.length, u.getD i 0 ^ 2 := by
    refine Finset.sum_le_sum_of_subset_of_nonneg
      (Finset.range_subset.2 (min_le_left _ _)) ?_
    intro i _ _
    exact sq_nonneg _
  have h3 : ∑ i ∈ Finset.range (min u.length v.length), v.getD i 0 ^ 2 ≤
      ∑ i ∈ Finset.range v.length, v.getD i 0 ^ 2 := by
    refine Finset.sum_le_sum_of_subset_of_nonneg
      (Finset.range_subset.2 (min_le_right _ _)) ?_
    intro i _ _
    exact sq_nonneg _
  have h4 : (0 : ℝ) ≤ ∑ i ∈ Finset.range (min u.length v.length), v.getD i 0 ^ 2 :=
    Finset.sum_nonneg fun i _ => sq_nonneg _
  have h5 : (0 : ℝ) ≤ ∑ i ∈ Finset.range u.length, u.getD i 0 ^ 2 :=
    Finset.sum_nonneg fun i _ => sq_nonneg _
  calc (∑ i ∈ Finset.range (min u.length v.length), u.getD i 0 ^ 2) *
        ∑ i ∈ Finset.range (min u.length v.length), v.getD i 0 ^ 2
      ≤ (∑ i ∈ Finset.range u.length, u.getD i 0 ^ 2) *
        ∑ i ∈ Finset.range (min u.length v.length), v.getD i 0 ^ 2 :=
        mul_le_mul_of_nonneg_right h2 h4
    _ ≤ (∑ i ∈ Finset.range u.length, u.getD i 0 ^ 2) *
        ∑ i ∈ Finset.range v.length, v.getD i 0 ^ 2 :=
        mul_le_mul_of_nonneg_left h3 h5
    _ = _ := by
        congr 1 <;> refine Finset.sum_congr rfl fun i _ => ?_ <;> ring

lemma norm2_nonneg (u : List ℝ) : 0 ≤ norm2 u :=
  Real.sqrt_nonneg _

lemma norm2_mul_self (u : List ℝ) : norm2 u * norm2 u = dot u u :=
  Real.mul_self_sqrt (dot_self_nonneg u)

lemma dot_le_norm2_mul (u v : List ℝ) : dot u v ≤ norm2 u * norm2 v := by
  refine (le_abs_self _).trans ?_
  rw [← Real.sqrt_sq_eq_abs]
  unfold norm2
  rw [← Real.sqrt_mul (dot_self_nonneg u)]
  exact Real.sqrt_le_sqrt (dot_sq_le u v)

lemma cosineSim_le_one (u v : List ℝ) : cosineSim u v ≤ 1 := by
  unfold cosineSim
  rcases eq_or_lt_of_le (mul_nonneg (norm2_nonneg u) (norm2_nonneg v)) with h | h
  · rw [← h, div_zero]
    norm_num
  · exact div_le_one_of_le₀ (dot_le_norm2_mul u v) (le_of_lt h)

lemma cosineSim_nonneg (u v : List ℝ) (hu : ∀ x ∈ u, 0 ≤ x)
    (hv : ∀ x ∈ v, 0 ≤ x) : 0 ≤ cosineSim u v :=
  div_nonneg (dot_nonneg u v hu hv)
    (mul_nonneg (norm2_nonneg u) (norm2_nonneg v))

lemma cosineSim_comm (u v : List ℝ) : cosineSim u v = cosineSim v u := by
  unfold cosineSim
  rw [dot_comm, mul_comm]

lemma cosineSim_self (u : List ℝ) (hu : ∃ x ∈ u, x ≠ 0) : cosineSim u u = 1 := by
  unfold cosineSim
  rw [norm2_mul_self]
  exact div_self (ne_of_gt (dot_self_pos u hu))

lemma cosineSim_zero_left (u v : List ℝ) (hu : ∀ x ∈ u, x = 0) :
    cosineSim u v = 0 := by
  unfold cosineSim
  rw [dot_zero_left u v hu, zero_div]

lemma docFreq_le_length (t : String) (docs : List (List String)) :
    docFreq t docs ≤ docs.length :=
  List.length_filter_le _ _

lemma idf_nonneg (docs : List (List String)) (t : String) : 0 ≤ idf docs t := by
  unfold idf
  have hd : (0 : ℝ) < 1 + (docFreq t docs : ℝ) := by positivity
  have h1 : (1 : ℝ) ≤ (1 + (docs.length : ℝ)) / (1 + (docFreq t docs : ℝ)) := by
    rw [le_div_iff₀ hd]
    have := docFreq_le_length t docs
    have hc : (docFreq t docs : ℝ) ≤ (docs.length : ℝ) := Nat.cast_le.2 this
    linarith
  have h2 := Real.log_nonneg h1
  linarith

lemma tfidfRaw_nonneg (docs : List (List String)) (d : List String) :
    ∀ x ∈ tfidfRaw docs d, 0 ≤ x := by
  intro x hx
  rcases List.mem_map.1 hx with ⟨t, _, rfl⟩
  exact mul_nonneg (Nat.cast_nonneg _) (idf_nonneg docs t)

lemma l2normalize_nonneg (u : List ℝ) (hu : ∀ x ∈ u, 0 ≤ x) :
    ∀ x ∈ l2normalize u, 0 ≤ x := by
  unfold l2normalize
  split
  · exact hu
  · intro x hx
    rcases List.mem_map.1 hx with ⟨a, ha, rfl⟩
    exact div_nonneg (hu a ha) (norm2_nonneg u)

lemma tfidfRows_nonneg (df : Catalog) :
    ∀ row ∈ tfidfRows df, ∀ x ∈ row, 0 ≤ x := by
  intro row hrow
  rcases List.mem_map.1 hrow with ⟨d, _, rfl⟩
  exact l2normalize_nonneg _ (tfidfRaw_nonneg _ d)

lemma tfidfRows_length (df : Catalog) :
    (tfidfRows df).length = df.items.length := by
  simp [tfidfRows, analyzedDocs, corpusFeatures]

lemma compute_similarity_length (df : Catalog) :
    (compute_similarity df).length = df.items.length := by
  simp [compute_similarity, tfidfRows_length]

lemma compute_similarity_rows (df : Catalog) :
    ∀ row ∈ compute_similarity df, row.length = df.items.length := by
  intro row h
  rcases List.mem_map.1 h with ⟨u, _, rfl⟩
  simp [tfidfRows_length]

lemma compute_similarity_entry (df : Catalog) {i j : ℕ}
    (hi : i < df.items.length) (hj : j < df.items.length) :
    entry (compute_similarity df) i j =
      cosineSim ((tfidfRows df).getD i []) ((tfidfRows df).getD j []) := by
  have hi' : i < (tfidfRows df).length := by
    rw [tfidfRows_length]
    exact hi
  have hj' : j < (tfidfRows df).length := by
    rw [tfidfRows_length]
    exact hj
  unfold entry compute_similarity
  have e1 : (List.map (fun u => List.map (fun v => cosineSim u v) (tfidfRows df))
        (tfidfRows df)).getD i [] =
      List.map (fun v => cosineSim ((tfidfRows df).getD i []) v) (tfidfRows df) := by
    have hilen : i < (List.map (fun u => List.map (fun v => cosineSim u v)
        (tfidfRows df)) (tfidfRows df)).length := by
      simpa using hi'
    rw [List.getD_eq_getElem _ _ hilen, List.getElem_map,
      List.getD_eq_getElem _ _ hi']
  rw [e1]
  have hjlen : j < (List.map (fun v => cosineSim ((tfidfRows df).getD i []) v)
      (tfidfRows df)).length := by
    simpa using hj'
  rw [List.getD_eq_getElem _ _ hjlen, List.getElem_map,
    List.getD_eq_getElem _ _ hj']

lemma tfidfRows_getD_mem (df : Catalog) {i : ℕ} (hi : i < df.items.length) :
    (tfidfRows df).getD i [] ∈ tfidfRows df := by
  have hi' : i < (tfidfRows df).length := by
    rw [tfidfRows_length]
    exact hi
  rw [List.getD_eq_getElem _ _ hi']
  exact List.getElem_mem hi'

lemma intercalate_pair (a b : String) :
    String.intercalate " " [a, b] = a ++ " " ++ b :=
  rfl

/-! ## The claims -/

/-- C4: for an identifier that matches no item name, `recommend` returns the
empty sequence through the normal path — the guard makes the body succeed
with `ok []`, so the condition is non-fatal and no exception reaches the
caller. -/
theorem C4_unknown_identifier_returns_empty {α : Type} [LinearOrder α] [Zero α]
    (course_name : String) (df : Catalog) (m : List (List α)) (k : ℕ)
    (h : course_name ∉ catalogNames df) :
    recommendBody course_name df m k = Except.ok [] ∧
      recommend course_name df m k = [] := by
  have hb : recommendBody course_name df m k = Except.ok [] := by
    unfold recommendBody
    rw [if_neg h]
  refine ⟨hb, ?_⟩
  unfold recommend
  rw [hb]

/-- Witness for C4: a concrete unknown identifier yields `ok []` and `[]`. -/
theorem C4_witness :
    ("Nonexistent Course" ∉ catalogNames catalog2) ∧
      (recommendBody "Nonexistent Course" catalog2
          ([[1, 0], [0, 1]] : List (List ℚ)) 6 = Except.ok [] ∧
        recommend "Nonexistent Course" catalog2
          ([[1, 0], [0, 1]] : List (List ℚ)) 6 = []) :=
  ⟨by decide, C4_unknown_identifier_returns_empty "Nonexistent Course" catalog2
    ([[1, 0], [0, 1]] : List (List ℚ)) 6 (by decide)⟩

/-- C9: on every input — any identifier, catalog, matrix shape and count —
`recommend` returns a list: the body's value when the try block succeeds,
and `[]` when the body signals an error (the except clause catches it). -/
theorem C9_total_never_propagates {α : Type} [LinearOrder α] [Zero α] :
    ∀ (course_name : String) (df : Catalog) (m : List (List α)) (k : ℕ),
      (∃ r, recommendBody course_name df m k = Except.ok r ∧
        recommend course_name df m k = r) ∨
      (∃ e, recommendBody course_name df m k = Except.error e ∧
        recommend course_name df m k = []) := by
  intro course_name df m k
  cases hb : recommendBody course_name df m k with
  | ok r =>
    refine Or.inl ⟨r, rfl, ?_⟩
    unfold recommend
    rw [hb]
  | error e =>
    refine Or.inr ⟨e, rfl, ?_⟩
    unfold recommend
    rw [hb]

/-- C10: the records of one recommendation list correspond to pairwise
distinct catalog indices — the selected index list is duplicate-free (it is
a sublist of a permutation of the row's index range) and `recommend` is
exactly `mkRecord` mapped over it. -/
theorem C10_no_duplicate_indices {α : Type} [LinearOrder α] [Zero α]
    (course_name : String) (df : Catalog) (m : List (List α)) (k : ℕ) :
    (recommendIndices course_name df m k).Nodup ∧
      recommend course_name df m k =
        (recommendIndices course_name df m k).map
          (mkRecord df (m.getD (resolveIdx df course_name) [])) := by
  refine ⟨?_, recommend_eq_map course_name df m k⟩
  unfold recommendIndices
  by_cases hmem : course_name ∈ catalogNames df
  · rw [if_pos hmem]
    cases hm : m.get? (resolveIdx df course_name) with
    | some scores =>
      dsimp only
      exact (similarIndices_nodup scores k).filter _
    | none =>
      dsimp only
      exact List.nodup_nil
  · rw [if_neg hmem]
    exact List.nodup_nil

/-- C8: the identifier resolves to the index of the FIRST item with the
queried name — the resolved index is in range, carries that name, every
earlier index carries a different name — and `recommend` reads the matrix
only through that row: matrices agreeing on it give identical results. -/
theorem C8_first_match_resolution {α : Type} [LinearOrder α] [Zero α]
    (df : Catalog) (name : String) (h : name ∈ catalogNames df) :
    resolveIdx df name < df.items.length ∧
      (df.items.getD (resolveIdx df name) default).name = name ∧
      (∀ j, j < resolveIdx df name → (df.items.getD j default).name ≠ name) ∧
      (∀ (m m' : List (List α)) (k : ℕ),
        m.get? (resolveIdx df name) = m'.get? (resolveIdx df name) →
        recommend name df m k = recommend name df m' k) := by
  refine ⟨resolveIdx_lt df h, resolveIdx_name df h,
    fun j hj => resolveIdx_least df name hj, ?_⟩
  intro m m' k hrow
  unfold recommend recommendBody
  rw [if_pos h, if_pos h, hrow]

/-- Witness for C8: in a catalog with two items named `A`, the resolved
index carries the name while every earlier index (there is none) differs. -/
theorem C8_witness :
    ("A" ∈ catalogNames dupCatalog) ∧
      (dupCatalog.items.getD (resolveIdx dupCatalog "A") default).name = "A" :=
  ⟨by decide,
    (C8_first_match_resolution (α := ℚ) dupCatalog "A" (by decide)).2.1⟩

/-- C2 counterexample: a catalog of two items with a 3×3 matrix (row length
3 ≠ catalog size 2).  `recommend` raises no fatal signal: it silently skips
the out-of-range candidate index 2 and returns a record computed from the
mismatched matrix. -/
theorem C2_counterexample :
    (([[1, mkRat 1 5, mkRat 4 5], [mkRat 1 5, 1, 0], [mkRat 4 5, 0, 1]] : List (List ℚ)).getD 0 []).length ≠
        catalog2.items.length ∧
      recommend "A" catalog2
          ([[1, mkRat 1 5, mkRat 4 5], [mkRat 1 5, 1, 0], [mkRat 4 5, 0, 1]] : List (List ℚ)) 2 =
        [{ name := "B", url := "uB", poster := "pB", description := "dB",
           provider := "vB", similarity_score := mkRat 1 5 }] := by
  decide

/-- C2 (amended): `recommend` never signals a dimension mismatch.  When the
resolved row exists — whatever its length — the body succeeds and every
returned record is built from an in-range catalog index of that possibly
mismatched row (out-of-range candidates are silently skipped); when the row
index is beyond the matrix, the IndexError is caught and `[]` returned. -/
theorem C2_amended_mismatch_is_silent {α : Type} [LinearOrder α] [Zero α]
    (course_name : String) (df : Catalog) (m : List (List α)) (k : ℕ)
    (hfound : course_name ∈ catalogNames df) :
    (resolveIdx df course_name < m.length →
      ∃ r, recommendBody course_name df m k = Except.ok r ∧
        recommend course_name df m k = r ∧
        ∀ r0 ∈ r, ∃ i, i < df.items.length ∧
          r0 = mkRecord df (m.getD (resolveIdx df course_name) []) i) ∧
    (m.length ≤ resolveIdx df course_name →
      recommendBody course_name df m k = Except.error "IndexError" ∧
        recommend course_name df m k = []) := by
  constructor
  · intro hidx
    obtain ⟨scores, hs⟩ : ∃ s, m.get? (resolveIdx df course_name) = some s := by
      rw [List.get?_eq_getElem?]
      exact ⟨_, List.getElem?_eq_getElem hidx⟩
    have hg : m.getD (resolveIdx df course_name) [] = scores := by
      simp [List.getD_eq_getElem?_getD, ← List.get?_eq_getElem?, hs]
    have hb : recommendBody course_name df m k =
        Except.ok ((similarIndices scores k).filterMap
          (fun i => if i < df.items.length then some (mkRecord df scores i) else none)) := by
      unfold recommendBody
      rw [if_pos hfound, hs]
    refine ⟨_, hb, ?_, ?_⟩
    · unfold recommend
      rw [hb]
    · intro r0 hr0
      rcases List.mem_filterMap.1 hr0 with ⟨i, _, hif⟩
      by_cases hi : i < df.items.length
      · rw [if_pos hi] at hif
        exact ⟨i, hi, by rw [hg]; exact (Option.some_injective _ hif).symm⟩
      · rw [if_neg hi] at hif
        exact absurd hif (Option.some_ne_none _).symm
  · intro hge
    have hs : m.get? (resolveIdx df course_name) = none := by
      rw [List.get?_eq_getElem?]
      exact List.getElem?_eq_none hge
    have hb : recommendBody course_name df m k = Except.error "IndexError" := by
      unfold recommendBody
      rw [if_pos hfound, hs]
    refine ⟨hb, ?_⟩
    unfold recommend
    rw [hb]

/-- Witness for C2's amended theorem: with an empty matrix the row is
missing, the body signals IndexError and `recommend` returns `[]`. -/
theorem C2_witness :
    recommendBody "A" catalog2 ([] : List (List ℚ)) 2 = Except.error "IndexError" ∧
      recommend "A" catalog2 ([] : List (List ℚ)) 2 = [] :=
  (C2_amended_mismatch_is_silent "A" catalog2 ([] : List (List ℚ)) 2
    (by decide)).2 (by decide)

/-- C3 counterexample: query `A` in a three-item catalog where `B` (index 1)
and `C` (index 2) tie at score `1/2`.  The result lists `C` before `B`: on a
tie the HIGHER original index comes first, not the lower. -/
theorem C3_counterexample :
    recommend "A" catalog3
        ([[1, mkRat 1 2, mkRat 1 2], [mkRat 1 2, 1, 0], [mkRat 1 2, 0, 1]] : List (List ℚ)) 2 =
      [{ name := "C", url := "uC", poster := "pC", description := "dC",
         provider := "vC", similarity_score := mkRat 1 2 },
       { name := "B", url := "uB", poster := "pB", description := "dB",
         provider := "vB", similarity_score := mkRat 1 2 }] := by
  decide

/-- C3 (amended): the result is sorted by non-increasing similarity score,
but ties are broken by DESCENDING original catalog index: reversing the
stable ascending argsort puts the higher index first among equal scores. -/
theorem C3_amended_sorted_ties_descending {α : Type} [LinearOrder α] [Zero α]
    (course_name : String) (df : Catalog) (m : List (List α)) (k : ℕ) :
    (recommendIndices course_name df m k).Pairwise (fun i j =>
        (m.getD (resolveIdx df course_name) []).getD j 0 <
            (m.getD (resolveIdx df course_name) []).getD i 0 ∨
          ((m.getD (resolveIdx df course_name) []).getD j 0 =
              (m.getD (resolveIdx df course_name) []).getD i 0 ∧ j < i)) ∧
      (recommend course_name df m k).Pairwise
        (fun a b => b.similarity_score ≤ a.similarity_score) := by
  have hidx : (recommendIndices course_name df m k).Pairwise (fun i j =>
      (m.getD (resolveIdx df course_name) []).getD j 0 <
          (m.getD (resolveIdx df course_name) []).getD i 0 ∨
        ((m.getD (resolveIdx df course_name) []).getD j 0 =
            (m.getD (resolveIdx df course_name) []).getD i 0 ∧ j < i)) := by
    unfold recommendIndices
    by_cases hmem : course_name ∈ catalogNames df
    · rw [if_pos hmem]
      cases hm : m.get? (resolveIdx df course_name) with
      | some scores =>
        have hg : m.getD (resolveIdx df course_name) [] = scores := by
          simp [List.getD_eq_getElem?_getD, ← List.get?_eq_getElem?, hm]
        dsimp only
        rw [hg]
        exact List.Pairwise.sublist (List.filter_sublist _)
          (similarIndices_pairwise_strict scores k)
      | none =>
        dsimp only
        exact List.Pairwise.nil
    · rw [if_neg hmem]
      exact List.Pairwise.nil
  refine ⟨hidx, ?_⟩
  rw [recommend_eq_map]
  rw [List.pairwise_map]
  refine hidx.imp ?_
  intro i j hij
  show (mkRecord df (m.getD (resolveIdx df course_name) []) j).similarity_score ≤
    (mkRecord df (m.getD (resolveIdx df course_name) []) i).similarity_score
  rcases hij with hlt | ⟨heq, _⟩
  · exact le_of_lt hlt
  · exact le_of_eq heq

/-- C5 counterexample: two items whose similarity row ties everywhere (as
`build_similarity` produces for two items with identical text).  With K = 3
and N − 1 = 1 < K the claim demands the one OTHER item (`B`); the code
returns the query item `A` itself instead. -/
theorem C5_counterexample :
    catalog2.items.length - 1 < 3 ∧
      recommend "A" catalog2 ([[1, 1], [1, 1]] : List (List ℚ)) 3 =
        [{ name := "A", url := "uA", poster := "pA", description := "dA",
           provider := "vA", similarity_score := 1 }] ∧
      "B" ∉ (recommend "A" catalog2
          ([[1, 1], [1, 1]] : List (List ℚ)) 3).map (fun r => r.name) := by
  decide

/-- C5 (amended): with an N×N matrix and a found identifier, `recommend`
returns exactly `min K (N − 1)` records: at most K, and fewer than K exactly
when N − 1 < K (in particular none for a single-item catalog).  Those N − 1
records, however, need not be the other items (see the counterexample). -/
theorem C5_amended_result_count {α : Type} [LinearOrder α] [Zero α]
    (course_name : String) (df : Catalog) (m : List (List α)) (k : ℕ)
    (hfound : course_name ∈ catalogNames df)
    (hm : m.length = df.items.length)
    (hrows : ∀ row ∈ m, row.length = df.items.length)
    (_hk : 1 ≤ k) :
    (recommend course_name df m k).length = min k (df.items.length - 1) ∧
      (recommend course_name df m k).length ≤ k ∧
      ((recommend course_name df m k).length < k ↔ df.items.length - 1 < k) := by
  have hlen : (recommend course_name df m k).length =
      min k (df.items.length - 1) := by
    rw [recommend_eq_map, List.length_map,
      recommendIndices_length course_name df m k hfound hm hrows]
  refine ⟨hlen, ?_, ?_⟩
  · rw [hlen]
    exact min_le_left _ _
  · rw [hlen]
    omega

/-- Witness for C5's amended theorem: two items, a 2×2 matrix, K = 3 — the
result length is `min 3 (2 − 1) = 1`. -/
theorem C5_witness :
    (recommend "A" catalog2 ([[1, mkRat 1 3], [mkRat 1 3, 1]] : List (List ℚ)) 3).length =
      min 3 (catalog2.items.length - 1) :=
  (C5_amended_result_count "A" catalog2 ([[1, mkRat 1 3], [mkRat 1 3, 1]] : List (List ℚ)) 3
    (by decide) (by decide) (by decide) (by decide)).1

/-- C7: the text feature vectorized for each item is the item's name and its
description joined by a single whitespace separator when the description
field exists, and the name alone otherwise — the corpus built by
`compute_similarity` coincides item by item with the spec's wording
(`specTextFeature`), totally, with empty fields as empty strings. -/
theorem C7_text_feature_matches_spec (df : Catalog) :
    corpusFeatures df = df.items.map (fun c => specTextFeature df c) := by
  unfold corpusFeatures
  refine List.map_congr_left ?_
  intro c _
  unfold featuresOf specTextFeature
  by_cases h : df.hasDescription
  · simp only [if_pos h, intercalate_pair]
  · simp only [if_neg h]

/-- C6 counterexample: a catalog of two items on which `compute_similarity`
does not return a matrix at all — no document yields a token (single-letter
names, no description column), the fitted vocabulary is empty and
`fit_transform` raises, so the claim's universally quantified statement
about the returned matrix fails at this N ≥ 2 catalog. -/
theorem C6_counterexample :
    2 ≤ emptyVocabCatalog.items.length ∧
      compute_similarityE emptyVocabCatalog =
        Except.error "ValueError: empty vocabulary" := by
  refine ⟨by decide, ?_⟩
  unfold compute_similarityE
  rw [if_pos
    (show buildVocab (analyzedDocs emptyVocabCatalog) 5000 = [] from by decide)]

/-- C6 (amended): for every catalog with at least two items WHOSE
VECTORIZATION SUCCEEDS — at least one document yields a token, i.e. the
fitted vocabulary is non-empty — `compute_similarity` returns (rather than
raising) an N×N matrix whose entries lie in [0, 1] and are symmetric; the
diagonal entry is 1 for every item whose vectorized text is nonzero, and an
item whose text vectorizes to the zero vector has similarity 0 to all items
(including itself), along its row and its column. -/
theorem C6_amended_matrix_properties (df : Catalog)
    (_h2 : 2 ≤ df.items.length)
    (hvocab : buildVocab (analyzedDocs df) 5000 ≠ []) :
    compute_similarityE df = Except.ok (compute_similarity df) ∧
      (compute_similarity df).length = df.items.length ∧
      (∀ row ∈ compute_similarity df, row.length = df.items.length) ∧
      (∀ i j, i < df.items.length → j < df.items.length →
        0 ≤ entry (compute_similarity df) i j ∧
          entry (compute_similarity df) i j ≤ 1 ∧
          entry (compute_similarity df) i j = entry (compute_similarity df) j i) ∧
      (∀ i, i < df.items.length →
        (∃ x ∈ (tfidfRows df).getD i [], x ≠ 0) →
        entry (compute_similarity df) i i = 1) ∧
      (∀ i, i < df.items.length →
        (∀ x ∈ (tfidfRows df).getD i [], x = 0) →
        ∀ j, j < df.items.length →
          entry (compute_similarity df) i j = 0 ∧
            entry (compute_similarity df) j i = 0) := by
  refine ⟨?_, compute_similarity_length df, compute_similarity_rows df, ?_, ?_, ?_⟩
  · unfold compute_similarityE
    rw [if_neg hvocab]
  · intro i j hi hj
    rw [compute_similarity_entry df hi hj, compute_similarity_entry df hj hi]
    have hrow_i := tfidfRows_nonneg df _ (tfidfRows_getD_mem df hi)
    have hrow_j := tfidfRows_nonneg df _ (tfidfRows_getD_mem df hj)
    exact ⟨cosineSim_nonneg _ _ hrow_i hrow_j, cosineSim_le_one _ _,
      cosineSim_comm _ _⟩
  · intro i hi hnz
    rw [compute_similarity_entry df hi hi]
    exact cosineSim_self _ hnz
  · intro i hi hz j hj
    rw [compute_similarity_entry df hi hj, compute_similarity_entry df hj hi]
    refine ⟨cosineSim_zero_left _ _ hz, ?_⟩
    rw [cosineSim_comm]
    exact cosineSim_zero_left _ _ hz

/-- Witness for C6's amended theorem at a concrete two-item catalog whose
fitted vocabulary is the non-empty `["xyz"]`: vectorization succeeds and the
matrix is returned. -/
theorem C6_witness :
    2 ≤ degenerateCatalog.items.length ∧
      compute_similarityE degenerateCatalog =
        Except.ok (compute_similarity degenerateCatalog) :=
  ⟨by decide,
    (C6_amended_matrix_properties degenerateCatalog (by decide) (by decide)).1⟩

/-! ### The degenerate catalog: evaluating the self-recommendation slip -/

lemma degenerate_analyzed :
    analyzedDocs degenerateCatalog = [[], ["xyz"]] := by
  decide

lemma degenerate_vocab :
    buildVocab [[], ["xyz"]] 5000 = ["xyz"] := by
  decide

lemma degenerate_idf_pos : 0 < idf [[], ["xyz"]] "xyz" := by
  unfold idf
  rw [show docFreq "xyz" [[], ["xyz"]] = 1 from by decide,
    show ([[], ["xyz"]] : List (List String)).length = 2 from rfl]
  push_cast
  have hlog : (0 : ℝ) ≤ Real.log ((1 + 2) / (1 + 1)) :=
    Real.log_nonneg (by norm_num)
  linarith

lemma degenerate_raw0 : tfidfRaw [[], ["xyz"]] [] = [0] := by
  unfold tfidfRaw
  rw [degenerate_vocab]
  simp

lemma degenerate_raw1 :
    tfidfRaw [[], ["xyz"]] ["xyz"] = [idf [[], ["xyz"]] "xyz"] := by
  unfold tfidfRaw
  rw [degenerate_vocab]
  simp

lemma l2normalize_zero_single : l2normalize [(0 : ℝ)] = [0] := by
  unfold l2normalize
  rw [if_pos]
  simp [norm2, dot]

lemma l2normalize_single_pos (x : ℝ) (hx : 0 < x) : l2normalize [x] = [1] := by
  unfold l2normalize
  have hd : dot [x] [x] = x * x := by
    simp [dot]
  have hn : norm2 [x] = x := by
    unfold norm2
    rw [hd]
    exact Real.sqrt_mul_self hx.le
  rw [if_neg (by rw [hn]; exact hx.ne')]
  rw [hn, List.map_singleton, div_self hx.ne']

lemma degenerate_rows : tfidfRows degenerateCatalog = [[0], [1]] := by
  unfold tfidfRows
  rw [degenerate_analyzed]
  simp only [List.map_cons, List.map_nil]
  rw [degenerate_raw0, degenerate_raw1, l2normalize_zero_single,
    l2normalize_single_pos _ degenerate_idf_pos]

lemma cosineSim_single_zero_zero : cosineSim [(0 : ℝ)] [0] = 0 := by
  unfold cosineSim
  rw [show dot [(0 : ℝ)] [0] = 0 from by simp [dot], zero_div]

lemma cosineSim_single_zero_one : cosineSim [(0 : ℝ)] [1] = 0 := by
  unfold cosineSim
  rw [show dot [(0 : ℝ)] [1] = 0 from by simp [dot], zero_div]

lemma cosineSim_single_one_zero : cosineSim [(1 : ℝ)] [0] = 0 := by
  unfold cosineSim
  rw [show dot [(1 : ℝ)] [0] = 0 from by simp [dot], zero_div]

lemma cosineSim_single_one_one : cosineSim [(1 : ℝ)] [1] = 1 := by
  unfold cosineSim
  rw [show dot [(1 : ℝ)] [1] = 1 from by simp [dot]]
  rw [show norm2 [(1 : ℝ)] = 1 from by
    unfold norm2
    rw [show dot [(1 : ℝ)] [1] = 1 from by simp [dot]]
    exact Real.sqrt_one]
  norm_num

lemma degenerate_similarity :
    compute_similarity degenerateCatalog = [[0, 0], [0, 1]] := by
  unfold compute_similarity
  rw [degenerate_rows]
  simp only [List.map_cons, List.map_nil]
  rw [cosineSim_single_zero_zero, cosineSim_single_zero_one,
    cosineSim_single_one_zero, cosineSim_single_one_one]

lemma degenerate_argsort : argsort ([0, 0] : List ℝ) = [0, 1] := by
  unfold argsort
  rw [show ([(0 : ℝ), 0].length) = 2 from rfl,
    show List.range 2 = [0, 1] from rfl]
  simp only [List.insertionSort, List.orderedInsert]
  rw [if_pos (show idxLe [(0 : ℝ), 0] 0 1 from Or.inr ⟨rfl, Nat.zero_le 1⟩)]

/-- C1: evaluating `recommend` at the degenerate catalog.  The first item's
text is the stop word `the` alone, its similarity row is all zeros, and the
query `the` is returned as its own sole recommendation: dropping the first
position of the reversed argsort removed index 1, not the query index 0.
The code's own comment promises to exclude the course itself, so this is a
bug in the code, not in the claim. -/
theorem C1_query_item_recommended_to_itself :
    (recommend "the" degenerateCatalog (compute_similarity degenerateCatalog)
        6).map (fun r => r.name) = ["the"] ∧
      (degenerateCatalog.items.getD 0 default).name = "the" := by
  refine ⟨?_, by decide⟩
  rw [degenerate_similarity]
  unfold recommend recommendBody
  rw [if_pos (show "the" ∈ catalogNames degenerateCatalog from by decide)]
  rw [show resolveIdx degenerateCatalog "the" = 0 from by decide]
  rw [show ([[0, 0], [0, 1]] : List (List ℝ)).get? 0 = some [0, 0] from rfl]
  dsimp only
  rw [show similarIndices ([0, 0] : List ℝ) 6 = [0] from by
    unfold similarIndices
    rw [degenerate_argsort]
    rfl]
  simp [mkRecord, degenerateCatalog]

end CourseRec
